import Mathlib

/-!
Shallow embedding of `paddle/cinn/operator_fusion/policy/relative_judge_policy.cc`
(the fusion-legality decision engine of the CINN operator-fusion pass).

External collaborators (the IR graph, the shape-analysis oracle, the signature
table, and the helpers declared in the missing header
`relative_judge_policy.h`) are modelled as an explicit environment `FusionEnv`
of oracle functions, and as minimal structures carrying exactly the data the
`.cc` file reads from them.  Fatal errors (`PADDLE_ENFORCE_EQ`, `PADDLE_THROW`,
`std::get` on a wrong variant) are modelled with `Except String`.
-/

namespace CinnFusion

/-- A `pir::Value`: an immutable, uniquely-identified result of an operation. -/
structure Value where
  id : Nat
deriving DecidableEq, Repr, Inhabited

/-- A `pir::Operation*`: identity plus its operand and result value lists. -/
structure Operation where
  id : Nat
  operands : List Value
  results : List Value
deriving DecidableEq, Repr, Inhabited

/-- `DimUsage` (header type): one dimension of one value at one consumption
edge — `(v_, idx_, usage_idx_)`. -/
structure DimUsage where
  v_ : Value
  idx_ : Nat
  usage_idx_ : Nat
deriving DecidableEq, Repr, Inhabited

/-- `symbol::DimExpr`: a symbolic dimension expression; either a statically
known integer (`isa<int64_t>`) or a symbolic expression. -/
inductive DimExpr where
  | int : Int → DimExpr
  | sym : String → DimExpr
deriving DecidableEq, Repr, Inhabited

/-- One entry of a `ShardableAxesSignature`: the ordered symbolic axis names of
one input or output of an operation. -/
structure ShardableAxes where
  axis_names : List String
deriving DecidableEq, Repr, Inhabited

/-- `ShardableAxesSignature` (external): per-operation axis names for each
input and each output. -/
structure ShardableAxesSignature where
  inputs : List ShardableAxes
  outputs : List ShardableAxes
deriving DecidableEq, Repr, Inhabited

/-- `TrivialPattern` (external variant member): a chain of shape-preserving
operations; exposes its final (sink) operation. -/
structure TrivialPattern where
  sink_op : Operation
deriving DecidableEq, Repr, Inhabited

/-- `ReducePattern` (external variant member): one reduction operation plus its
trivial producers.  `reduce_op` is `GetReduceOp()`; `input_values` models
`GetPatternInputValues` (declared in the missing header): the pattern's input
values. -/
structure ReducePattern where
  reduce_op : Operation
  input_values : List Value
deriving DecidableEq, Repr, Inhabited

/-- `ReduceTreePattern` (external variant member).  `root` is
`GetRootPattern()`; `ops` is `ops()`.  Modelled from the spec:
`FlattenReducePattern()` (defined in the missing header) is carried as the
stored list `flatten` of all `ReducePattern`s of the tree in pre-order. -/
structure ReduceTreePattern where
  root : ReducePattern
  flatten : List ReducePattern
  ops : List Operation
deriving DecidableEq, Repr, Inhabited

/-- `StmtPattern`: the closed variant of pattern kinds. -/
inductive StmtPattern where
  | trivial : TrivialPattern → StmtPattern
  | reduce : ReducePattern → StmtPattern
  | reduceTree : ReduceTreePattern → StmtPattern
deriving DecidableEq, Repr, Inhabited

/-- `std::holds_alternative<ReduceTreePattern<T>>` on a `StmtPattern`. -/
def StmtPattern.isReduceTree : StmtPattern → Bool
  | .reduceTree _ => true
  | _ => false

/-- `std::holds_alternative<TrivialPattern<T>>` on a `StmtPattern`. -/
def StmtPattern.isTrivial : StmtPattern → Bool
  | .trivial _ => true
  | _ => false

/-- `PatternNode` (external): wraps one `StmtPattern` and exposes `sink_op()`. -/
structure PatternNode where
  stmt_pattern : StmtPattern
  sink_op : Operation
deriving DecidableEq, Repr, Inhabited

/-- The read-only external context of one legality query: the shape-analysis
oracle, the relatedness relation, the use-edge query of the graph, the
signature table, and the header helpers `GetUsageIdx` and the per-value rank
used by `GetValueUsage`.  All are opaque oracles to the `.cc` file. -/
structure FusionEnv where
  /-- `RelativeJudgePolicy::IsRelated(a, b)` (header): symbolic relatedness. -/
  isRelated : DimUsage → DimUsage → Bool
  /-- `DimUsage::GetSymbolicDim()` (header): the symbolic size of the axis. -/
  symbolicDim : DimUsage → DimExpr
  /-- `DimUsage::SymbolicEqualTo(other)` (header): proven symbolic-size equality. -/
  symbolicEqualTo : DimUsage → DimUsage → Bool
  /-- `shape_analysis.GetProductDimExpr(v, dim_idx)`: symbolic product of axes. -/
  getProductDimExpr : Value → List Nat → DimExpr
  /-- `shape_analysis.IsEqual(a, b)`: symbolic equality proof between exprs. -/
  isEqual : DimExpr → DimExpr → Bool
  /-- `GetUsageIdx(v, op)` (header): index of the consumption edge of `v` by `op`. -/
  getUsageIdx : Value → Operation → Nat
  /-- Rank (number of axes) of a value, fixed by its symbolic shape. -/
  rank : Value → Nat
  /-- `axes_info_.GetSignature(op)`: signature-table lookup. -/
  getSignature : Operation → ShardableAxesSignature
  /-- Use-edge iteration `value.use_begin()..use_end()`: the owner operation of
  each consumption edge of the value, one entry per edge. -/
  uses : Value → List Operation

/-- Modelled from the spec: `GetValueUsage(v, usage_idx)` (missing header) —
the dimension usages of value `v` at consumption edge `usage_idx`, one
`DimUsage` per axis of `v`, in axis order. -/
def GetValueUsage (env : FusionEnv) (v : Value) (usage_idx : Nat) : List DimUsage :=
  (List.range (env.rank v)).map (fun i => DimUsage.mk v i usage_idx)

/-- Modelled from the spec: `GatherVectorExcept(vec, idx)` (missing header) —
remove from `vec` the elements at the listed positions. -/
def GatherVectorExcept (vec : List DimUsage) (except_idx : List Nat) : List DimUsage :=
  ((List.range vec.length).filter (fun i => !except_idx.contains i)).map
    (fun i => vec.getD i default)

/-- `RelativeJudgePolicy<T>::IsDownstreamStmtDependReduceOp` (lines 21-31):
true iff some result of `reduce` is among the downstream pattern's input
values. -/
def IsDownstreamStmtDependReduceOp (reduce : Operation) (downstream : ReducePattern) :
    Bool :=
  reduce.results.any (fun value => downstream.input_values.contains value)

/-- `RelativeJudgePolicy<T>::GetDownstreamFromCandidate` (lines 33-45): the
first candidate depending on the upstream root's reduce operation, if any. -/
def GetDownstreamFromCandidate (upstream : ReducePattern)
    (candidates : List ReducePattern) : Option ReducePattern :=
  candidates.find? (fun candidate =>
    IsDownstreamStmtDependReduceOp upstream.reduce_op candidate)

/-- `SplitReduceDims` (lines 47-83): walk the signature's input axis names in
order; an axis whose name is absent from the output-name set becomes a reduce
dim at its positional index, otherwise a non-reduce dim; all tagged with the
value `operand_source(0)` and its usage index at `op`. -/
def SplitReduceDims (env : FusionEnv) (signature : ShardableAxesSignature)
    (op : Operation) : List DimUsage × List DimUsage :=
  let v := op.operands.getD 0 default
  let input_names := (signature.inputs.getD 0 default).axis_names
  let output_names := (signature.outputs.getD 0 default).axis_names
  let usage_idx := env.getUsageIdx v op
  (((List.range input_names.length).filter
      (fun idx => !output_names.contains (input_names.getD idx ""))).map
      (fun idx => DimUsage.mk v idx usage_idx),
   ((List.range input_names.length).filter
      (fun idx => output_names.contains (input_names.getD idx ""))).map
      (fun idx => DimUsage.mk v idx usage_idx))

/-- `RelativeJudgePolicy<T>::SplitFirstIfRelatedBySecond` (lines 85-120):
partition `targets` in order into those related (by `IsRelated`) to some
dimension of `related_with` and those related to none. -/
def SplitFirstIfRelatedBySecond (env : FusionEnv) (targets : List DimUsage)
    (related_with : List DimUsage) : List DimUsage × List DimUsage :=
  (targets.filter (fun target_dim =>
      related_with.any (fun related_dim => env.isRelated related_dim target_dim)),
   targets.filter (fun target_dim =>
      !related_with.any (fun related_dim => env.isRelated related_dim target_dim)))

/-- `ElementwiseEqual` (lines 122-152): build, for each list, the map from
symbolic dimension value to occurrence count; equal iff the maps have the same
number of keys and every key of the first occurs in the second with the same
count. -/
def ElementwiseEqual (env : FusionEnv) (first second : List DimUsage) : Bool :=
  let first_vals := first.map env.symbolicDim
  let second_vals := second.map env.symbolicDim
  first_vals.dedup.length == second_vals.dedup.length &&
    first_vals.dedup.all (fun dim_value =>
      second_vals.contains dim_value &&
        second_vals.count dim_value == first_vals.count dim_value)

/-- `GetProductDimExprForValueDims` (lines 154-164): symbolic `0` for the empty
list, else the oracle's product of the listed axis indices of `dims[0].v_`. -/
def GetProductDimExprForValueDims (env : FusionEnv) (dims : List DimUsage) :
    DimExpr :=
  match dims with
  | [] => DimExpr.int 0
  | d0 :: _ => env.getProductDimExpr d0.v_ (dims.map DimUsage.idx_)

/-- `IsProductSmallerOrEqual` (lines 166-180): true for empty `first`; integer
comparison `≤` when both products are statically known; otherwise the oracle's
symbolic equality verdict between the two products. -/
def IsProductSmallerOrEqual (env : FusionEnv) (first second : List DimUsage) :
    Bool :=
  if first.isEmpty then true
  else
    let first_product := GetProductDimExprForValueDims env first
    let second_product := GetProductDimExprForValueDims env second
    match first_product, second_product with
    | DimExpr.int a, DimExpr.int b => decide (a ≤ b)
    | fp, sp => env.isEqual fp sp

/-- `FindUserOp` (lines 182-200): collect, over the value's use edges, the
consumers lying in `candidates`; `PADDLE_ENFORCE_EQ` fails fatally unless
exactly one was found, which is then returned. -/
def FindUserOp (env : FusionEnv) (candidates : List Operation) (value : Value) :
    Except String Operation :=
  let results := (env.uses value).filter (fun user_op => candidates.contains user_op)
  if results.length = 1 then
    Except.ok (results.headD default)
  else
    Except.error "Zero or multiple user operations found in candidates!"

/-- `RelativeJudgePolicy<T>::ReduceTreeGrownCanMerge` (lines 202-245): locate a
downstream flattened `ReducePattern` depending on the upstream root reduce op
(none → false); find the unique downstream consumer of the upstream root's
result 0; split the matched downstream reduction's dims; verdict: true iff no
downstream reduce dim is related to the upstream output's usages at that edge. -/
def ReduceTreeGrownCanMerge (env : FusionEnv) (upstream downstream : PatternNode) :
    Except String Bool :=
  match upstream.stmt_pattern, downstream.stmt_pattern with
  | StmtPattern.reduceTree upstream_tree, StmtPattern.reduceTree downstream_tree =>
    match GetDownstreamFromCandidate upstream_tree.root downstream_tree.flatten with
    | none => Except.ok false
    | some matched =>
      let reduce_out_value := upstream_tree.root.reduce_op.results.getD 0 default
      match FindUserOp env downstream_tree.ops reduce_out_value with
      | Except.error e => Except.error e
      | Except.ok downstream_connect_op =>
        let downstream_reduce_op := matched.reduce_op
        let split := SplitReduceDims env (env.getSignature downstream_reduce_op)
          downstream_reduce_op
        let upstream_output_dims := GetValueUsage env reduce_out_value
          (env.getUsageIdx reduce_out_value downstream_connect_op)
        let rel := SplitFirstIfRelatedBySecond env split.1 upstream_output_dims
        Except.ok (rel.1.length == 0)
  | _, _ => Except.error "bad_variant_access"

/-- Inner matching loop of `GetFakeReduceIterIdx` (lines 306-317): for each
upstream reduce dim in order, find the first not-yet-visited reordered dim with
exactly equal symbolic size; mark it visited and record its `idx_`. -/
def FakeReduceMatchLoop (env : FusionEnv) :
    List DimUsage → List DimUsage → List DimUsage → List Nat
  | [], _, _ => []
  | reduce_dim :: rest, trivial_dims, visited =>
    match trivial_dims.find? (fun trivial_dim =>
        !visited.contains trivial_dim && env.symbolicEqualTo trivial_dim reduce_dim) with
    | some trivial_dim =>
      trivial_dim.idx_ :: FakeReduceMatchLoop env rest trivial_dims (trivial_dim :: visited)
    | none => FakeReduceMatchLoop env rest trivial_dims visited

/-- `RelativeJudgePolicy<T>::GetFakeReduceIterIdx` (lines 290-320): fatal
"Illegal Call" when the upstream is not a reduce tree and the downstream is not
trivial; else split the upstream sink's dims, take the downstream output's
usages not related to the upstream preserved dims, and greedily match each
upstream reduce dim to the first unvisited reordered dim of equal symbolic
size, returning the matched positional indices. -/
def GetFakeReduceIterIdx (env : FusionEnv) (upstream downstream : PatternNode) :
    Except String (List Nat) :=
  if !upstream.stmt_pattern.isReduceTree && !downstream.stmt_pattern.isTrivial then
    Except.error "Illegal Call GetFakeReduceIterIdx"
  else
    let split := SplitReduceDims env (env.getSignature upstream.sink_op)
      upstream.sink_op
    let rel := SplitFirstIfRelatedBySecond env
      (GetValueUsage env (downstream.sink_op.results.getD 0 default) 0) split.2
    Except.ok (FakeReduceMatchLoop env split.1 rel.2 [])

/-- `RelativeJudgePolicy<T>::ReducePlusTrivialCanMerge` (lines 247-273): split
the upstream sink's dims; keep the downstream output usages non-related to the
upstream preserved dims; remove the fake-reduce positions from the downstream
output usages; verdict: elementwise-equal branch or product-bound branch. -/
def ReducePlusTrivialCanMerge (env : FusionEnv) (upstream downstream : PatternNode) :
    Except String Bool :=
  let split := SplitReduceDims env (env.getSignature upstream.sink_op)
    upstream.sink_op
  let rel := SplitFirstIfRelatedBySecond env
    (GetValueUsage env (downstream.sink_op.results.getD 0 default) 0) split.2
  match GetFakeReduceIterIdx env upstream downstream with
  | Except.error e => Except.error e
  | Except.ok fakes =>
    let downstream_free_dims := GatherVectorExcept
      (GetValueUsage env (downstream.sink_op.results.getD 0 default) 0) fakes
    Except.ok (ElementwiseEqual env rel.2 split.1 ||
      IsProductSmallerOrEqual env downstream_free_dims split.2)

/-- `RelativeJudgePolicy<T>::CanFuse` (lines 275-288): dispatch on the variant
kinds; (ReduceTree, Trivial) → `ReducePlusTrivialCanMerge`; (ReduceTree,
ReduceTree) → `ReduceTreeGrownCanMerge`; anything else → true. -/
def CanFuse (env : FusionEnv) (upstream downstream : PatternNode) :
    Except String Bool :=
  if upstream.stmt_pattern.isReduceTree && downstream.stmt_pattern.isTrivial then
    ReducePlusTrivialCanMerge env upstream downstream
  else if upstream.stmt_pattern.isReduceTree && downstream.stmt_pattern.isReduceTree then
    ReduceTreeGrownCanMerge env upstream downstream
  else
    Except.ok true

/-! Concrete fixtures used by witness theorems. -/

/-- A concrete operation with no operands or results. -/
def opA : Operation := ⟨0, [], []⟩

/-- A second concrete operation. -/
def opB : Operation := ⟨1, [], []⟩

/-- A concrete value. -/
def valA : Value := ⟨0⟩

/-- A concrete dimension usage. -/
def dimA : DimUsage := ⟨valA, 0, 0⟩

/-- A simple fully-concrete environment. -/
def envDefault : FusionEnv where
  isRelated := fun _ _ => false
  symbolicDim := fun _ => DimExpr.int 1
  symbolicEqualTo := fun _ _ => false
  getProductDimExpr := fun _ _ => DimExpr.int 1
  isEqual := fun a b => a == b
  getUsageIdx := fun _ _ => 0
  rank := fun _ => 0
  getSignature := fun _ => ⟨[], []⟩
  uses := fun _ => []

/-- An environment in which `valA` has two consumption edges owned by `opA`. -/
def envTwoUses : FusionEnv :=
  { envDefault with uses := fun _ => [opA, opA] }

/-- A pattern node holding a trivial pattern. -/
def nodeTriv : PatternNode := ⟨StmtPattern.trivial ⟨opA⟩, opA⟩

/-- A pattern node holding a plain reduce pattern. -/
def nodeRed : PatternNode := ⟨StmtPattern.reduce ⟨opA, []⟩, opA⟩

/-- A pattern node holding a reduce-tree pattern with empty flattened list. -/
def nodeRT : PatternNode :=
  ⟨StmtPattern.reduceTree ⟨⟨opA, []⟩, [], []⟩, opA⟩

/-- A concrete reduction signature: input axes named `["i", "j"]`, output axes
named `["i"]`. -/
def sigEx : ShardableAxesSignature := ⟨[⟨["i", "j"]⟩], [⟨["i"]⟩]⟩

/-- A concrete reduction operation consuming and producing `valA`. -/
def opC : Operation := ⟨2, [valA], [valA]⟩

/-- The full input list of `SplitReduceDims`: one dimension usage per input
axis of the reduction's first operand, in axis order. -/
def InputDims (env : FusionEnv) (signature : ShardableAxesSignature)
    (op : Operation) : List DimUsage :=
  (List.range (signature.inputs.getD 0 default).axis_names.length).map
    (fun idx => DimUsage.mk (op.operands.getD 0 default) idx
      (env.getUsageIdx (op.operands.getD 0 default) op))

/-- C4: `IsProductSmallerOrEqual` is true for empty `first`; when `first` is
non-empty and both products are statically known integers it decides `≤`
(equality included); in every other non-empty case it returns the oracle's
equality verdict on the two symbolic products. -/
theorem C4_IsProductSmallerOrEqual (env : FusionEnv) (first second : List DimUsage) :
    (first = [] → IsProductSmallerOrEqual env first second = true) ∧
    (∀ a b : Int, first ≠ [] →
      GetProductDimExprForValueDims env first = DimExpr.int a →
      GetProductDimExprForValueDims env second = DimExpr.int b →
      (IsProductSmallerOrEqual env first second = true ↔ a ≤ b)) ∧
    (first ≠ [] →
      ((∀ a : Int, GetProductDimExprForValueDims env first ≠ DimExpr.int a) ∨
       (∀ b : Int, GetProductDimExprForValueDims env second ≠ DimExpr.int b)) →
      IsProductSmallerOrEqual env first second =
        env.isEqual (GetProductDimExprForValueDims env first)
          (GetProductDimExprForValueDims env second)) := by
  refine ⟨?_, ?_, ?_⟩
  · intro h
    subst h
    rfl
  · intro a b hne hf hs
    have hie : first.isEmpty = false := by
      simp [List.isEmpty_iff, hne]
    simp only [IsProductSmallerOrEqual, hie, Bool.false_eq_true, if_false, hf, hs]
    exact decide_eq_true_iff
  · intro hne hcase
    have hie : first.isEmpty = false := by
      simp [List.isEmpty_iff, hne]
    rcases hf : GetProductDimExprForValueDims env first with a | s1 <;>
      rcases hs : GetProductDimExprForValueDims env second with b | s2
    · rcases hcase with h | h
      · exact absurd hf (h a)
      · exact absurd hs (h b)
    · simp [IsProductSmallerOrEqual, hie, hf, hs]
    · simp [IsProductSmallerOrEqual, hie, hf, hs]
    · simp [IsProductSmallerOrEqual, hie, hf, hs]

/-- C4 witness: with the default environment, the product of `[dimA]` on both
sides is the static integer 1, and `1 ≤ 1` makes the verdict true. -/
theorem C4_IsProductSmallerOrEqual_witness :
    IsProductSmallerOrEqual envDefault [dimA] [dimA] = true :=
  ((C4_IsProductSmallerOrEqual envDefault [dimA] [dimA]).2.1 1 1
    (by decide) rfl rfl).mpr (by decide)

/-- C3: `CanFuse` dispatches to `ReducePlusTrivialCanMerge` exactly on
(ReduceTree, Trivial), to `ReduceTreeGrownCanMerge` exactly on (ReduceTree,
ReduceTree), and returns true unconditionally on every other variant
combination. -/
theorem C3_CanFuse_dispatch (env : FusionEnv) (up dn : PatternNode) :
    (up.stmt_pattern.isReduceTree = true → dn.stmt_pattern.isTrivial = true →
      CanFuse env up dn = ReducePlusTrivialCanMerge env up dn) ∧
    (up.stmt_pattern.isReduceTree = true → dn.stmt_pattern.isReduceTree = true →
      CanFuse env up dn = ReduceTreeGrownCanMerge env up dn) ∧
    (¬(up.stmt_pattern.isReduceTree = true ∧ dn.stmt_pattern.isTrivial = true) →
     ¬(up.stmt_pattern.isReduceTree = true ∧ dn.stmt_pattern.isReduceTree = true) →
      CanFuse env up dn = Except.ok true) := by
  refine ⟨?_, ?_, ?_⟩
  · intro h1 h2
    simp [CanFuse, h1, h2]
  · intro h1 h2
    have ht : dn.stmt_pattern.isTrivial = false := by
      cases hd : dn.stmt_pattern <;> simp_all [StmtPattern.isTrivial, StmtPattern.isReduceTree]
    simp [CanFuse, h1, h2, ht]
  · intro h1 h2
    rcases hu : up.stmt_pattern.isReduceTree with _ | _
    · simp [CanFuse, hu]
    · rcases hd1 : dn.stmt_pattern.isTrivial with _ | _
      · rcases hd2 : dn.stmt_pattern.isReduceTree with _ | _
        · simp [CanFuse, hu, hd1, hd2]
        · exact absurd ⟨hu, hd2⟩ h2
      · exact absurd ⟨hu, hd1⟩ h1

/-- C3 witness: a (Reduce, Reduce) pair is neither special combination, so the
dispatcher returns true unconditionally. -/
theorem C3_CanFuse_dispatch_witness :
    CanFuse envDefault nodeRed nodeRed = Except.ok true :=
  (C3_CanFuse_dispatch envDefault nodeRed nodeRed).2.2 (by decide) (by decide)

/-- C8: `FindUserOp` fails fatally whenever the number of the value's
consuming edges owned by candidate operations differs from one, and returns an
operation only when exactly one such consumer exists — that operation being a
consumer of the value lying in the candidate list. -/
theorem C8_FindUserOp (env : FusionEnv) (candidates : List Operation) (value : Value) :
    (((env.uses value).filter (fun u => candidates.contains u)).length = 0 ∨
        1 < ((env.uses value).filter (fun u => candidates.contains u)).length →
      FindUserOp env candidates value =
        Except.error "Zero or multiple user operations found in candidates!") ∧
    (∀ u, FindUserOp env candidates value = Except.ok u →
      ((env.uses value).filter (fun u => candidates.contains u)).length = 1 ∧
        u ∈ env.uses value ∧ u ∈ candidates) := by
  constructor
  · intro h
    have hne : ((env.uses value).filter (fun u => candidates.contains u)).length ≠ 1 := by
      rcases h with h | h <;> omega
    simp only [FindUserOp]
    rw [if_neg hne]
  · intro u hu
    simp only [FindUserOp] at hu
    by_cases h1 : ((env.uses value).filter (fun u => candidates.contains u)).length = 1
    · refine ⟨h1, ?_⟩
      rw [if_pos h1] at hu
      rcases List.length_eq_one.mp h1 with ⟨a, ha⟩
      rw [ha] at hu
      have hu2 : a = u := by
        simpa using hu
      have hmem : u ∈ (env.uses value).filter (fun u => candidates.contains u) := by
        rw [ha, hu2]
        exact List.mem_singleton_self u
      have := List.mem_filter.mp hmem
      exact ⟨this.1, by simpa using this.2⟩
    · rw [if_neg h1] at hu
      exact absurd hu (by simp)

/-- C8 witness: `valA` has two consumption edges owned by `opA`, both inside
the candidate list, so `FindUserOp` fails fatally rather than picking one. -/
theorem C8_FindUserOp_witness :
    FindUserOp envTwoUses [opA] valA =
      Except.error "Zero or multiple user operations found in candidates!" :=
  (C8_FindUserOp envTwoUses [opA] valA).1 (Or.inr (by decide))

/-- C9: `GetFakeReduceIterIdx` raises the fatal "Illegal Call" error exactly
when the upstream is not a `ReduceTreePattern` and the downstream is not a
`TrivialPattern`; otherwise it returns a result without error. -/
theorem C9_GetFakeReduceIterIdx_guard (env : FusionEnv) (up dn : PatternNode) :
    (up.stmt_pattern.isReduceTree = false → dn.stmt_pattern.isTrivial = false →
      GetFakeReduceIterIdx env up dn =
        Except.error "Illegal Call GetFakeReduceIterIdx") ∧
    (up.stmt_pattern.isReduceTree = true ∨ dn.stmt_pattern.isTrivial = true →
      ∃ l, GetFakeReduceIterIdx env up dn = Except.ok l) := by
  constructor
  · intro h1 h2
    simp [GetFakeReduceIterIdx, h1, h2]
  · intro h
    have hcond : (!up.stmt_pattern.isReduceTree && !dn.stmt_pattern.isTrivial) = false := by
      rcases h with h | h <;> simp [h]
    refine ⟨FakeReduceMatchLoop env
      (SplitReduceDims env (env.getSignature up.sink_op) up.sink_op).1
      (SplitFirstIfRelatedBySecond env
        (GetValueUsage env (dn.sink_op.results.getD 0 default) 0)
        (SplitReduceDims env (env.getSignature up.sink_op) up.sink_op).2).2 [], ?_⟩
    simp [GetFakeReduceIterIdx, hcond]

/-- C9 witness: a (Reduce, Reduce) pair violates the precondition and the call
aborts with the fatal "Illegal Call" error. -/
theorem C9_GetFakeReduceIterIdx_guard_witness :
    GetFakeReduceIterIdx envDefault nodeRed nodeRed =
      Except.error "Illegal Call GetFakeReduceIterIdx" :=
  (C9_GetFakeReduceIterIdx_guard envDefault nodeRed nodeRed).1 (by decide) (by decide)

/-- The cardinality of a list's finset of elements is the length of its
deduplicated list. -/
theorem toFinset_card_eq_dedup_length {α : Type} [DecidableEq α] (l : List α) :
    l.toFinset.card = l.dedup.length := by
  simp [Finset.card, List.toFinset_val]

/-- Boolean list containment agrees with list membership. -/
theorem contains_eq_true_iff_mem {α : Type} [DecidableEq α] (l : List α) (x : α) :
    l.contains x = true ↔ x ∈ l := by
  simp [List.contains, List.elem_iff]

/-- Characterization of `ElementwiseEqual`: it holds exactly when the two
lists of symbolic dimension values are equal as multisets, i.e. every symbolic
value occurs equally often in both. -/
theorem elementwiseEqual_eq_true_iff (env : FusionEnv) (A B : List DimUsage) :
    ElementwiseEqual env A B = true ↔
      ∀ e, (A.map env.symbolicDim).count e = (B.map env.symbolicDim).count e := by
  set f := A.map env.symbolicDim with hf
  set s := B.map env.symbolicDim with hs
  simp only [ElementwiseEqual, ← hf, ← hs, Bool.and_eq_true, beq_iff_eq,
    List.all_eq_true, contains_eq_true_iff_mem]
  constructor
  · rintro ⟨hlen, hall⟩ e
    by_cases he : e ∈ f
    · exact ((hall e (List.mem_dedup.mpr he)).2).symm
    · have hf0 : f.count e = 0 := List.count_eq_zero.mpr he
      have hsub : f.toFinset ⊆ s.toFinset := by
        intro x hx
        have hxf : x ∈ f := List.mem_toFinset.mp hx
        exact List.mem_toFinset.mpr (hall x (List.mem_dedup.mpr hxf)).1
      have hcard : s.toFinset.card ≤ f.toFinset.card := by
        rw [toFinset_card_eq_dedup_length, toFinset_card_eq_dedup_length, hlen]
      have heq : f.toFinset = s.toFinset := Finset.eq_of_subset_of_card_le hsub hcard
      have hes : e ∉ s := by
        intro hmem
        exact he (List.mem_toFinset.mp (heq ▸ List.mem_toFinset.mpr hmem))
      rw [hf0, List.count_eq_zero.mpr hes]
  · intro h
    have hfs : f.toFinset = s.toFinset := by
      ext x
      simp only [List.mem_toFinset, ← List.count_pos_iff, h x]
    constructor
    · rw [← toFinset_card_eq_dedup_length, ← toFinset_card_eq_dedup_length, hfs]
    · intro e he
      have hef : e ∈ f := List.mem_dedup.mp he
      have hes : e ∈ s := by
        rw [← List.mem_toFinset, ← hfs, List.mem_toFinset]
        exact hef
      exact ⟨hes, (h e).symm⟩

/-- C7: `ElementwiseEqual` is symmetric in its two list arguments and
reflexive, including on the empty list. -/
theorem C7_ElementwiseEqual_symm_refl :
    (∀ (env : FusionEnv) (A B : List DimUsage),
      ElementwiseEqual env A B = ElementwiseEqual env B A) ∧
    (∀ (env : FusionEnv) (A : List DimUsage), ElementwiseEqual env A A = true) := by
  constructor
  · intro env A B
    rcases h1 : ElementwiseEqual env A B with _ | _ <;>
      rcases h2 : ElementwiseEqual env B A with _ | _
    · rfl
    · exact absurd ((elementwiseEqual_eq_true_iff env A B).mpr
        (fun e => ((elementwiseEqual_eq_true_iff env B A).mp h2 e).symm))
        (by simp [h1])
    · exact absurd ((elementwiseEqual_eq_true_iff env B A).mpr
        (fun e => ((elementwiseEqual_eq_true_iff env A B).mp h1 e).symm))
        (by simp [h2])
    · rfl
  · intro env A
    exact (elementwiseEqual_eq_true_iff env A A).mpr (fun _ => rfl)

/-- Membership in a mapped filtered range of dimension usages is decided by
the filter predicate at the axis index. -/
theorem mem_map_filter_range_iff (v : Value) (u n : Nat) (p : Nat → Bool)
    (i : Nat) (hi : i < n) :
    DimUsage.mk v i u ∈
        ((List.range n).filter p).map (fun idx => DimUsage.mk v idx u) ↔
      p i = true := by
  constructor
  · intro h
    rcases List.mem_map.mp h with ⟨x, hx, he⟩
    have hxi : x = i := congrArg DimUsage.idx_ he
    subst hxi
    exact (List.mem_filter.mp hx).2
  · intro hp
    exact List.mem_map.mpr ⟨i, List.mem_filter.mpr ⟨List.mem_range.mpr hi, hp⟩, rfl⟩

/-- C5: `SplitReduceDims` classifies the input axis at each position as a
reduce dimension exactly when its name is absent from the output axis names,
and as a non-reduce (preserved) dimension otherwise. -/
theorem C5_SplitReduceDims_classification (env : FusionEnv)
    (signature : ShardableAxesSignature) (op : Operation) (i : Nat)
    (hi : i < (signature.inputs.getD 0 default).axis_names.length) :
    (DimUsage.mk (op.operands.getD 0 default) i
        (env.getUsageIdx (op.operands.getD 0 default) op) ∈
          (SplitReduceDims env signature op).1 ↔
      (signature.outputs.getD 0 default).axis_names.contains
        ((signature.inputs.getD 0 default).axis_names.getD i "") = false) ∧
    (DimUsage.mk (op.operands.getD 0 default) i
        (env.getUsageIdx (op.operands.getD 0 default) op) ∈
          (SplitReduceDims env signature op).2 ↔
      (signature.outputs.getD 0 default).axis_names.contains
        ((signature.inputs.getD 0 default).axis_names.getD i "") = true) := by
  constructor
  · rw [SplitReduceDims, mem_map_filter_range_iff _ _ _ _ i hi]
    simp
  · rw [SplitReduceDims, mem_map_filter_range_iff _ _ _ _ i hi]

/-- C5 witness: for input axes `["i", "j"]` and output axes `["i"]`, the split
yields exactly the axis at index 1 as the reduce dimension and the axis at
index 0 as the preserved dimension, and the axis at index 1 is classified as
reduced because `"j"` is absent from the outputs. -/
theorem C5_SplitReduceDims_classification_witness :
    SplitReduceDims envDefault sigEx opC =
        ([DimUsage.mk valA 1 0], [DimUsage.mk valA 0 0]) ∧
      DimUsage.mk valA 1 0 ∈ (SplitReduceDims envDefault sigEx opC).1 :=
  ⟨by decide,
   (C5_SplitReduceDims_classification envDefault sigEx opC 1 (by decide)).1.mpr
     (by decide)⟩

/-- C6: both split operations produce two output lists that are order
preserving (each a sublist of the input), disjoint, and jointly exhaustive:
their concatenation is a permutation of the input list, and every input
element lands in exactly one of the two lists.  For `SplitReduceDims` the
input list is the list of all input-axis dimension usages in axis order. -/
theorem C6_split_partition (env : FusionEnv) (targets related_with : List DimUsage)
    (signature : ShardableAxesSignature) (op : Operation) :
    ((SplitFirstIfRelatedBySecond env targets related_with).1.Sublist targets ∧
     (SplitFirstIfRelatedBySecond env targets related_with).2.Sublist targets ∧
     ((SplitFirstIfRelatedBySecond env targets related_with).1 ++
        (SplitFirstIfRelatedBySecond env targets related_with).2).Perm targets ∧
     (∀ x, ¬(x ∈ (SplitFirstIfRelatedBySecond env targets related_with).1 ∧
             x ∈ (SplitFirstIfRelatedBySecond env targets related_with).2)) ∧
     (∀ x ∈ targets, x ∈ (SplitFirstIfRelatedBySecond env targets related_with).1 ∨
        x ∈ (SplitFirstIfRelatedBySecond env targets related_with).2)) ∧
    ((SplitReduceDims env signature op).1.Sublist (InputDims env signature op) ∧
     (SplitReduceDims env signature op).2.Sublist (InputDims env signature op) ∧
     ((SplitReduceDims env signature op).1 ++
        (SplitReduceDims env signature op).2).Perm (InputDims env signature op) ∧
     (∀ x, ¬(x ∈ (SplitReduceDims env signature op).1 ∧
             x ∈ (SplitReduceDims env signature op).2)) ∧
     (∀ x ∈ InputDims env signature op, x ∈ (SplitReduceDims env signature op).1 ∨
        x ∈ (SplitReduceDims env signature op).2)) := by
  constructor
  · refine ⟨List.filter_sublist _, List.filter_sublist _, ?_, ?_, ?_⟩
    · exact List.filter_append_perm _ targets
    · rintro x ⟨h1, h2⟩
      have hp1 := (List.mem_filter.mp h1).2
      have hp2 : (related_with.any fun related_dim => env.isRelated related_dim x) = false := by
        simpa using (List.mem_filter.mp h2).2
      rw [hp1] at hp2
      exact absurd hp2 (by simp)
    · intro x hx
      by_cases hp : (related_with.any fun related_dim => env.isRelated related_dim x) = true
      · exact Or.inl (List.mem_filter.mpr ⟨hx, hp⟩)
      · exact Or.inr (List.mem_filter.mpr ⟨hx, by simpa using hp⟩)
  · simp only [SplitReduceDims, InputDims]
    refine ⟨(List.filter_sublist _).map _, (List.filter_sublist _).map _, ?_, ?_, ?_⟩
    · rw [← List.map_append]
      exact List.Perm.map _ (List.perm_append_comm.trans (List.filter_append_perm _ _))
    · rintro x ⟨h1, h2⟩
      rcases List.mem_map.mp h1 with ⟨a, ha, rfl⟩
      rcases List.mem_map.mp h2 with ⟨b, hb, hba⟩
      have hab : b = a := congrArg DimUsage.idx_ hba
      subst hab
      have hp1 : ((signature.outputs.getD 0 default).axis_names.contains
          ((signature.inputs.getD 0 default).axis_names.getD b "")) = false := by
        simpa using (List.mem_filter.mp ha).2
      have hp2 := (List.mem_filter.mp hb).2
      rw [hp2] at hp1
      exact absurd hp1 (by simp)
    · intro x hx
      rcases List.mem_map.mp hx with ⟨a, ha, rfl⟩
      by_cases hp : ((signature.outputs.getD 0 default).axis_names.contains
          ((signature.inputs.getD 0 default).axis_names.getD a "")) = true
      · exact Or.inr (List.mem_map.mpr ⟨a, List.mem_filter.mpr ⟨ha, hp⟩, rfl⟩)
      · refine Or.inl (List.mem_map.mpr ⟨a, List.mem_filter.mpr ⟨ha, ?_⟩, rfl⟩)
        simpa using hp

/-- C6 witness: with the default environment every target is unrelated to the
empty reference list, so the single target `dimA` lands in one of the two
output lists (the non-related one). -/
theorem C6_split_partition_witness :
    dimA ∈ (SplitFirstIfRelatedBySecond envDefault [dimA] []).1 ∨
      dimA ∈ (SplitFirstIfRelatedBySecond envDefault [dimA] []).2 :=
  (C6_split_partition envDefault [dimA] [] sigEx opC).1.2.2.2.2 dimA (by decide)

/-- Dimension usages of one value at one edge are determined by their axis
index. -/
theorem getValueUsage_inj_idx (env : FusionEnv) (v : Value) (u : Nat) :
    ∀ a ∈ GetValueUsage env v u, ∀ b ∈ GetValueUsage env v u,
      a.idx_ = b.idx_ → a = b := by
  intro a ha b hb h
  rcases List.mem_map.mp ha with ⟨i, _, rfl⟩
  rcases List.mem_map.mp hb with ⟨j, _, rfl⟩
  have hij : i = j := h
  rw [hij]

/-- Invariant of the fake-reduce matching loop: the result is no longer than
the reduce-dimension list, has pairwise-distinct entries (when distinct
reordered dimensions carry distinct indices), and every entry is the index of
some reordered dimension that was not initially visited. -/
theorem fakeReduceMatchLoop_spec (env : FusionEnv) (tds : List DimUsage)
    (hinj : ∀ a ∈ tds, ∀ b ∈ tds, a.idx_ = b.idx_ → a = b) :
    ∀ rds visited : List DimUsage,
      (FakeReduceMatchLoop env rds tds visited).length ≤ rds.length ∧
      (FakeReduceMatchLoop env rds tds visited).Nodup ∧
      ∀ i ∈ FakeReduceMatchLoop env rds tds visited,
        ∃ td ∈ tds, ¬ td ∈ visited ∧ td.idx_ = i := by
  intro rds
  induction rds with
  | nil =>
    intro visited
    simp [FakeReduceMatchLoop]
  | cons rd rds ih =>
    intro visited
    rcases hfind : tds.find? (fun td =>
        !visited.contains td && env.symbolicEqualTo td rd) with _ | td
    · have hrec := ih visited
      simp only [FakeReduceMatchLoop, hfind]
      exact ⟨le_trans hrec.1 (Nat.le_succ _), hrec.2.1, hrec.2.2⟩
    · have hmem : td ∈ tds := List.mem_of_find?_eq_some hfind
      have hpred := List.find?_some hfind
      have hnv : ¬ td ∈ visited := by
        have := (Bool.and_eq_true _ _).mp hpred |>.1
        simpa using this
      have hrec := ih (td :: visited)
      simp only [FakeReduceMatchLoop, hfind]
      refine ⟨Nat.succ_le_succ hrec.1, ?_, ?_⟩
      · refine List.nodup_cons.mpr ⟨?_, hrec.2.1⟩
        intro hmem'
        rcases hrec.2.2 _ hmem' with ⟨td', htd', hnin, hidx⟩
        have heq : td' = td := hinj td' htd' td hmem hidx
        subst heq
        exact hnin (List.mem_cons_self _ _)
      · intro i hi
        rcases List.mem_cons.mp hi with hi | hi
        · exact ⟨td, hmem, hnv, hi.symm⟩
        · rcases hrec.2.2 i hi with ⟨td', htd', hnin, hidx⟩
          exact ⟨td', htd', fun hx => hnin (List.mem_cons_of_mem _ hx), hidx⟩

/-- C10: under its precondition, `GetFakeReduceIterIdx` returns without error
a list of pairwise-distinct indices, at most one per upstream reduced
dimension, each the position of some dimension of the downstream reordered
(non-related) subset; unmatched upstream reduced dimensions contribute
nothing. -/
theorem C10_GetFakeReduceIterIdx_matching (env : FusionEnv) (up dn : PatternNode)
    (h : up.stmt_pattern.isReduceTree = true ∨ dn.stmt_pattern.isTrivial = true) :
    ∃ l, GetFakeReduceIterIdx env up dn = Except.ok l ∧ l.Nodup ∧
      l.length ≤
        (SplitReduceDims env (env.getSignature up.sink_op) up.sink_op).1.length ∧
      ∀ i ∈ l, ∃ td ∈ (SplitFirstIfRelatedBySecond env
          (GetValueUsage env (dn.sink_op.results.getD 0 default) 0)
          (SplitReduceDims env (env.getSignature up.sink_op) up.sink_op).2).2,
        td.idx_ = i := by
  have hcond : (!up.stmt_pattern.isReduceTree && !dn.stmt_pattern.isTrivial) = false := by
    rcases h with h | h <;> simp [h]
  have hinj : ∀ a ∈ (SplitFirstIfRelatedBySecond env
        (GetValueUsage env (dn.sink_op.results.getD 0 default) 0)
        (SplitReduceDims env (env.getSignature up.sink_op) up.sink_op).2).2,
      ∀ b ∈ (SplitFirstIfRelatedBySecond env
        (GetValueUsage env (dn.sink_op.results.getD 0 default) 0)
        (SplitReduceDims env (env.getSignature up.sink_op) up.sink_op).2).2,
      a.idx_ = b.idx_ → a = b := by
    intro a ha b hb hab
    exact getValueUsage_inj_idx env (dn.sink_op.results.getD 0 default) 0
      a (List.mem_of_mem_filter ha) b (List.mem_of_mem_filter hb) hab
  have hspec := fakeReduceMatchLoop_spec env _ hinj
    (SplitReduceDims env (env.getSignature up.sink_op) up.sink_op).1 []
  refine ⟨_, ?_, hspec.2.1, hspec.1, ?_⟩
  · simp only [GetFakeReduceIterIdx, hcond, Bool.false_eq_true, if_false]
  · intro i hi
    rcases hspec.2.2 i hi with ⟨td, htd, _, hidx⟩
    exact ⟨td, htd, hidx⟩

/-- C10 witness: the matching loop on the concrete (ReduceTree, Trivial) pair
returns without error and satisfies all the stated bounds. -/
theorem C10_GetFakeReduceIterIdx_matching_witness :
    ∃ l, GetFakeReduceIterIdx envDefault nodeRT nodeTriv = Except.ok l ∧ l.Nodup ∧
      l.length ≤ (SplitReduceDims envDefault
        (envDefault.getSignature nodeRT.sink_op) nodeRT.sink_op).1.length ∧
      ∀ i ∈ l, ∃ td ∈ (SplitFirstIfRelatedBySecond envDefault
          (GetValueUsage envDefault (nodeTriv.sink_op.results.getD 0 default) 0)
          (SplitReduceDims envDefault
            (envDefault.getSignature nodeRT.sink_op) nodeRT.sink_op).2).2,
        td.idx_ = i :=
  C10_GetFakeReduceIterIdx_matching envDefault nodeRT nodeTriv (Or.inl (by decide))

/-- C1: for pattern nodes whose stmt patterns are both reduce trees,
`ReduceTreeGrownCanMerge` returns false when no `ReducePattern` of the
downstream flattened list has an input value among the results of the upstream
root reduce operation; otherwise, once the unique consuming operation is
found, it returns true exactly when no downstream reduced dimension is related
to any dimension usage of the upstream root reduction's output at that
consuming edge. -/
theorem C1_ReduceTreeGrownCanMerge (env : FusionEnv) (up dn : PatternNode)
    (ut dt : ReduceTreePattern)
    (hu : up.stmt_pattern = StmtPattern.reduceTree ut)
    (hd : dn.stmt_pattern = StmtPattern.reduceTree dt) :
    ((∀ c ∈ dt.flatten, IsDownstreamStmtDependReduceOp ut.root.reduce_op c = false) →
      ReduceTreeGrownCanMerge env up dn = Except.ok false) ∧
    (∀ matched connect_op,
      GetDownstreamFromCandidate ut.root dt.flatten = some matched →
      FindUserOp env dt.ops (ut.root.reduce_op.results.getD 0 default) =
        Except.ok connect_op →
      (ReduceTreeGrownCanMerge env up dn = Except.ok true ↔
        ∀ d ∈ (SplitReduceDims env (env.getSignature matched.reduce_op)
            matched.reduce_op).1,
          ∀ ud ∈ GetValueUsage env (ut.root.reduce_op.results.getD 0 default)
            (env.getUsageIdx (ut.root.reduce_op.results.getD 0 default) connect_op),
            env.isRelated ud d = false)) := by
  constructor
  · intro hnone
    have hfind : GetDownstreamFromCandidate ut.root dt.flatten = none := by
      rw [GetDownstreamFromCandidate, List.find?_eq_none]
      intro c hc
      simp [hnone c hc]
    simp [ReduceTreeGrownCanMerge, hu, hd, hfind]
  · intro matched connect_op hm hf
    have hrw : ReduceTreeGrownCanMerge env up dn =
        Except.ok ((SplitFirstIfRelatedBySecond env
          (SplitReduceDims env (env.getSignature matched.reduce_op)
            matched.reduce_op).1
          (GetValueUsage env (ut.root.reduce_op.results.getD 0 default)
            (env.getUsageIdx (ut.root.reduce_op.results.getD 0 default)
              connect_op))).1.length == 0) := by
      simp only [ReduceTreeGrownCanMerge, hu, hd, hm, hf]
    rw [hrw]
    simp only [Except.ok.injEq, beq_iff_eq, List.length_eq_zero,
      SplitFirstIfRelatedBySecond, List.filter_eq_nil_iff]
    constructor
    · intro hnil d hdmem ud hudmem
      have hna := hnil d hdmem
      rw [List.any_eq_true] at hna
      rcases hrel : env.isRelated ud d with _ | _
      · rfl
      · exact absurd ⟨ud, hudmem, hrel⟩ hna
    · intro hrel d hdmem
      intro hany
      rcases List.any_eq_true.mp hany with ⟨ud, hudmem, hx⟩
      rw [hrel d hdmem ud hudmem] at hx
      exact absurd hx (by simp)

/-- C1 witness: with an empty downstream flattened list no candidate depends
on the upstream root, so the merge is rejected. -/
theorem C1_ReduceTreeGrownCanMerge_witness :
    ReduceTreeGrownCanMerge envDefault nodeRT nodeRT = Except.ok false :=
  (C1_ReduceTreeGrownCanMerge envDefault nodeRT nodeRT ⟨⟨opA, []⟩, [], []⟩
    ⟨⟨opA, []⟩, [], []⟩ rfl rfl).1 (by intro c hc; simp at hc)

/-- C2: for a pair accepted by the dispatcher for the reduce-plus-trivial rule
(upstream a reduce tree, downstream trivial), with `fakes` the fake-reduce
index list, `ReducePlusTrivialCanMerge` is true exactly when the non-related
downstream output dimension usages are multiset-equal to the upstream reduced
dimensions, or the product of the downstream output usages with the fake
positions removed is within the upstream preserved dimensions; in particular
the elementwise-equal branch alone suffices. -/
theorem C2_ReducePlusTrivialCanMerge (env : FusionEnv) (up dn : PatternNode)
    (ut : ReduceTreePattern) (tp : TrivialPattern)
    (_hu : up.stmt_pattern = StmtPattern.reduceTree ut)
    (_hd : dn.stmt_pattern = StmtPattern.trivial tp)
    (fakes : List Nat)
    (hfakes : GetFakeReduceIterIdx env up dn = Except.ok fakes) :
    (ReducePlusTrivialCanMerge env up dn = Except.ok true ↔
      (ElementwiseEqual env
          (SplitFirstIfRelatedBySecond env
            (GetValueUsage env (dn.sink_op.results.getD 0 default) 0)
            (SplitReduceDims env (env.getSignature up.sink_op) up.sink_op).2).2
          (SplitReduceDims env (env.getSignature up.sink_op) up.sink_op).1 = true ∨
       IsProductSmallerOrEqual env
          (GatherVectorExcept
            (GetValueUsage env (dn.sink_op.results.getD 0 default) 0) fakes)
          (SplitReduceDims env (env.getSignature up.sink_op) up.sink_op).2 = true)) ∧
    (ElementwiseEqual env
        (SplitFirstIfRelatedBySecond env
          (GetValueUsage env (dn.sink_op.results.getD 0 default) 0)
          (SplitReduceDims env (env.getSignature up.sink_op) up.sink_op).2).2
        (SplitReduceDims env (env.getSignature up.sink_op) up.sink_op).1 = true →
      ReducePlusTrivialCanMerge env up dn = Except.ok true) := by
  have hrw : ReducePlusTrivialCanMerge env up dn =
      Except.ok (ElementwiseEqual env
        (SplitFirstIfRelatedBySecond env
          (GetValueUsage env (dn.sink_op.results.getD 0 default) 0)
          (SplitReduceDims env (env.getSignature up.sink_op) up.sink_op).2).2
        (SplitReduceDims env (env.getSignature up.sink_op) up.sink_op).1 ||
      IsProductSmallerOrEqual env
        (GatherVectorExcept
          (GetValueUsage env (dn.sink_op.results.getD 0 default) 0) fakes)
        (SplitReduceDims env (env.getSignature up.sink_op) up.sink_op).2) := by
    simp only [ReducePlusTrivialCanMerge, hfakes]
  constructor
  · rw [hrw]
    simp [Bool.or_eq_true]
  · intro ha
    rw [hrw, ha]
    simp

/-- C2 witness: on the concrete (ReduceTree, Trivial) pair both sides are
empty lists, the product branch is vacuously true, and the merge is accepted. -/
theorem C2_ReducePlusTrivialCanMerge_witness :
    ReducePlusTrivialCanMerge envDefault nodeRT nodeTriv = Except.ok true :=
  ((C2_ReducePlusTrivialCanMerge envDefault nodeRT nodeTriv ⟨⟨opA, []⟩, [], []⟩
    ⟨opA⟩ rfl rfl [] rfl).1).mpr (Or.inr (by decide))

end CinnFusion
